import Mathlib

/-!
Verification development for the `blast_api` repository.

The core of the repository is `src/main.py`: the class `Alignment`, the
report parser `parse_blast_text_output`, the poller `wait_for_blast_results`
and the submission driver `run_blast`.  This file shallowly embeds those
functions in Lean: Python strings become `String`, Python `None`/`int`/`str`
dynamic values become the inductive `PyVal`, and Python exceptions become
`Except PyErr`.  Local variables of `parse_blast_text_output` that may be
read before their first assignment (Python's `UnboundLocalError`) are
modelled as `Option PyVal`, with `none` meaning "unbound".

All string primitives used by the source (`str.split`, `str.strip`,
`str.startswith`, `in`, `str.lstrip`, `" ".join`, `int(...)`) are given
executable definitions that follow the CPython semantics on the inputs the
parser handles (ASCII text; `\s`, `\d` and `int()` are modelled over the
ASCII whitespace/digit ranges).
-/

set_option maxRecDepth 1000000

namespace Blast

/-- Dynamic Python value: the parser stores `None`, `int` or `str` in the
record fields. -/
inductive PyVal where
  | pynone
  | pyint (n : Int)
  | pystr (s : String)
  deriving DecidableEq, Repr

/-- The Python exceptions the embedded code can raise. -/
inductive PyErr where
  | indexError
  | valueError
  | attributeError
  | unboundLocal
  deriving DecidableEq, Repr

/-- An alignment segment `(start, sequence_text, end)` as stored in
`query_align_chunks` / `sbjct_align_chunks`. -/
abbrev Chunk := Int × String × Int

/-- `True` for the characters Python's `str.strip()` / `str.split()` (and
`\s` of the `re` module) treat as whitespace, restricted to ASCII. -/
def isPyWs (c : Char) : Bool :=
  c = ' ' || c = '\t' || c = '\n' || c = '\r' || c = '\x0b' || c = '\x0c'

/-- Match a literal character sequence at the start of a text, returning
the rest (used for separator splitting and by the regex matchers). -/
def matchLit : List Char → List Char → Option (List Char)
  | [], cs => some cs
  | _ :: _, [] => none
  | p :: ps, c :: cs => if c = p then matchLit ps cs else none

/-- Auxiliary for `pySplitSep`: the piece before the first occurrence of
the separator, and (when the separator occurs) the text after it. -/
def splitSepOnce (sep : List Char) : List Char → List Char × Option (List Char)
  | [] => ([], none)
  | c :: cs =>
    match matchLit sep (c :: cs) with
    | some rest => ([], some rest)
    | none =>
      match splitSepOnce sep cs with
      | (piece, r) => (c :: piece, r)

/-- Splitting loop for `pySplitSep`.  The `fuel` argument only forces
structural recursion: every round removes at least one whole separator from
the text, so any `fuel` of at least the text length is enough and the
`fuel = 0` fallback is never reached by `pySplitSep`. -/
def splitSepList (sep : List Char) : Nat → List Char → List (List Char)
  | 0, l => [l]
  | fuel + 1, l =>
    match splitSepOnce sep l with
    | (piece, none) => [piece]
    | (piece, some rest) => piece :: splitSepList sep fuel rest

/-- Python `s.split(sep)` for a non-empty separator: non-overlapping,
left-to-right, keeping empty pieces.  `"".split(sep) = [""]`. -/
def pySplitSep (sep s : String) : List String :=
  (splitSepList sep.toList (s.length + 1) s.toList).map String.mk

/-- Auxiliary for `pySplitWs`: split at every character satisfying `p`. -/
def splitCharAux (p : Char → Bool) (cur : List Char) : List Char → List (List Char)
  | [] => [cur.reverse]
  | c :: cs => if p c then cur.reverse :: splitCharAux p [] cs else splitCharAux p (c :: cur) cs

/-- Python `s.split()` (no argument): split on whitespace runs, discarding
empty pieces. -/
def pySplitWs (s : String) : List String :=
  ((splitCharAux isPyWs [] s.toList).filter (fun l => !l.isEmpty)).map String.mk

/-- Python `s.strip()`. -/
def pyStrip (s : String) : String :=
  String.mk (((s.toList.dropWhile isPyWs).reverse.dropWhile isPyWs).reverse)

/-- Python `s.lstrip(">")`: drop every leading `>`. -/
def pyLstripGt (s : String) : String :=
  String.mk (s.toList.dropWhile (fun c => c = '>'))

/-- Python `s.startswith(pre)`. -/
def pyStartsWith (s pre : String) : Bool :=
  pre.toList.isPrefixOf s.toList

/-- Auxiliary for `pyContains`. -/
def containsListAux (sub : List Char) : List Char → Bool
  | [] => sub.isEmpty
  | c :: cs => sub.isPrefixOf (c :: cs) || containsListAux sub cs

/-- Python `sub in s` (substring test). -/
def pyContains (s sub : String) : Bool :=
  sub.toList.isPrefixOf s.toList || containsListAux sub.toList s.toList

/-- Python `sep.join(parts)`. -/
def pyJoin (sep : String) : List String → String
  | [] => ""
  | [x] => x
  | x :: y :: xs => x ++ sep ++ pyJoin sep (y :: xs)

/-- Numeric value of a list of ASCII digits. -/
def digitsVal (l : List Char) : Nat :=
  l.foldl (fun a c => 10 * a + (c.toNat - 48)) 0

/-- Python `int(s)` on a decimal string: strips whitespace, allows one sign,
then requires a non-empty digit run; otherwise `ValueError`. -/
def pyInt (s : String) : Except PyErr Int :=
  match (pyStrip s).toList with
  | [] => .error .valueError
  | c :: cs =>
    let (sign, ds) : Int × List Char :=
      if c = '-' then (-1, cs) else if c = '+' then (1, cs) else (1, c :: cs)
    if !ds.isEmpty && ds.all Char.isDigit then .ok (sign * (digitsVal ds : Int))
    else .error .valueError

/-- Python `l[i]` on a list: `IndexError` when out of range (the source only
indexes with non-negative constants). -/
def pyIndex {α : Type} (l : List α) (i : Nat) : Except PyErr α :=
  match l.get? i with
  | some a => .ok a
  | none => .error .indexError

/-- Truthiness of the `rid` variable in `run_blast` (`if rid:`): `None` and
the empty string are falsy. -/
def pyTruthyStrOpt : Option String → Bool
  | none => false
  | some s => !s.isEmpty

/-!
Matchers for the three `re.search` patterns of `parse_blast_text_output`.
Each `...At` function tries the pattern at the start of a character list;
`reSearch` then scans left to right, which is exactly `re.search`'s
leftmost-match rule.  All quantified subpatterns (`[\d\.]+`, `\d+`,
`[\deE\.\-]+`) are followed either by a character their class excludes or by
the end of the pattern, so maximal munch coincides with the backtracking
semantics of the Python engine.
-/

/-- Match one character of a class, returning the rest. -/
def classOne (p : Char → Bool) : List Char → Option (List Char)
  | [] => none
  | c :: cs => if p c then some cs else none

/-- Match a maximal non-empty run of a class, returning run and rest. -/
def classPlus (p : Char → Bool) (cs : List Char) : Option (List Char × List Char) :=
  match cs.takeWhile p, cs.dropWhile p with
  | [], _ => none
  | r :: rs, rest => some (r :: rs, rest)

/-- `re.search`: try the anchored matcher at each position, leftmost first. -/
def reSearch {α : Type} (f : List Char → Option α) : List Char → Option α
  | [] => f []
  | c :: cs =>
    match f (c :: cs) with
    | some r => some r
    | none => reSearch f cs

/-- Character class `[\d\.]`. -/
def isDigitDot (c : Char) : Bool := c.isDigit || c = '.'

/-- Character class `[\deE\.\-]`. -/
def isEValChar (c : Char) : Bool := c.isDigit || c = 'e' || c = 'E' || c = '.' || c = '-'

/-- Pattern `Score\s=\s([\d\.]+)\sbits\s\((\d+)\)` anchored at the start;
returns the two groups. -/
def scoreAt (cs : List Char) : Option (String × String) := do
  let cs ← matchLit "Score".toList cs
  let cs ← classOne isPyWs cs
  let cs ← matchLit "=".toList cs
  let cs ← classOne isPyWs cs
  let (g1, cs) ← classPlus isDigitDot cs
  let cs ← classOne isPyWs cs
  let cs ← matchLit "bits".toList cs
  let cs ← classOne isPyWs cs
  let cs ← matchLit "(".toList cs
  let (g2, cs) ← classPlus Char.isDigit cs
  let _ ← matchLit ")".toList cs
  some (String.mk g1, String.mk g2)

/-- Pattern `Expect(?:\(\d+\))? = ([\deE\.\-]+)` anchored at the start; the
optional group is tried greedily with fallback, as the Python engine does. -/
def expectAt (cs : List Char) : Option String :=
  match matchLit "Expect".toList cs with
  | none => none
  | some cs1 =>
    let tail : List Char → Option String := fun r => do
      let r ← matchLit " = ".toList r
      let (g, _) ← classPlus isEValChar r
      some (String.mk g)
    let withGroup : Option String := do
      let r ← matchLit "(".toList cs1
      let (_, r) ← classPlus Char.isDigit r
      let r ← matchLit ")".toList r
      tail r
    match withGroup with
    | some s => some s
    | none => tail cs1

/-- Pattern `Identities\s=\s(\d+)\/(\d+)\s\((\d+)\%\)` anchored at the
start; returns the three groups. -/
def identAt (cs : List Char) : Option (String × String × String) := do
  let cs ← matchLit "Identities".toList cs
  let cs ← classOne isPyWs cs
  let cs ← matchLit "=".toList cs
  let cs ← classOne isPyWs cs
  let (g1, cs) ← classPlus Char.isDigit cs
  let cs ← matchLit "/".toList cs
  let (g2, cs) ← classPlus Char.isDigit cs
  let cs ← classOne isPyWs cs
  let cs ← matchLit "(".toList cs
  let (g3, cs) ← classPlus Char.isDigit cs
  let cs ← matchLit "%".toList cs
  let _ ← matchLit ")".toList cs
  some (String.mk g1, String.mk g2, String.mk g3)

/-- `int(group)` for a regex group that matched `\d+`: always succeeds. -/
def intOfDigits (s : String) : Int :=
  (digitsVal s.toList : Int)

/-!
The `Alignment` class (src/main.py lines 18-86).  `__init__` stores the
fields, joins the chunk texts into `query_align` / `sbjct_align`, and then
derives `subj_range = (sbjct_align_chunks[0][0], sbjct_align_chunks[-1][2])`
— which raises `IndexError` when `sbjct_align_chunks` is empty, so
construction is modelled as a fallible `Alignment.init`.
-/

/-- The fields of a constructed `Alignment` object. -/
structure Alignment where
  subj_id : String
  subj_name : String
  subj_len : PyVal
  score : PyVal
  score_bits : PyVal
  e_value : PyVal
  match_len : PyVal
  identities : PyVal
  align_len : PyVal
  query_align_chunks : List Chunk
  sbjct_align_chunks : List Chunk
  query_align : String
  sbjct_align : String
  subj_range : Int × Int
  deriving DecidableEq, Repr

/-- `"".join(seq for _, seq, _ in chunks)`. -/
def joinChunkTexts (chunks : List Chunk) : String :=
  chunks.foldl (fun acc c => acc ++ c.2.1) ""

/-- `Alignment.__init__`: stores the fields, derives the joined alignment
strings, and derives `subj_range` from the first and last subject chunk —
raising `IndexError` on an empty subject-chunk list. -/
def Alignment.init (subj_id subj_name : String)
    (subj_len score_bits score e_value identities match_len align_len : PyVal)
    (query_align_chunks sbjct_align_chunks : List Chunk) : Except PyErr Alignment :=
  match h : sbjct_align_chunks with
  | [] => .error .indexError
  | c :: cs =>
    .ok { subj_id := subj_id, subj_name := subj_name, subj_len := subj_len,
          score := score, score_bits := score_bits, e_value := e_value,
          match_len := match_len, identities := identities, align_len := align_len,
          query_align_chunks := query_align_chunks,
          sbjct_align_chunks := sbjct_align_chunks,
          query_align := joinChunkTexts query_align_chunks,
          sbjct_align := joinChunkTexts sbjct_align_chunks,
          subj_range := (c.1, ((c :: cs).getLast (by simp)).2.2) }

/-!
The parser `parse_blast_text_output` (src/main.py lines 252-349).

Function-local variables of the Python code fall into two groups:

* `subj_len, score, e_value, identities, align_len` and the two chunk lists
  are (re)assigned at the top of every outer-loop iteration;
* `score_bits` and `match_len` are *not* in that reset line (line 283): they
  are only assigned inside the `Score =` / `Identities` branches, persist
  across sub-records and blocks, and reading them in the `Alignment(...)`
  call before their first assignment raises `UnboundLocalError`.  They are
  therefore modelled as `Option PyVal` (`none` = still unbound).
-/

/-- The per-sub-record scan variables of `parse_blast_text_output`,
including the two never-reset locals `score_bits` and `match_len`. -/
structure SubVars where
  subj_len : PyVal
  score : PyVal
  e_value : PyVal
  identities : PyVal
  align_len : PyVal
  score_bits : Option PyVal
  match_len : Option PyVal
  qchunks : List Chunk
  schunks : List Chunk
  deriving DecidableEq, Repr

/-- `Length=` branch: `subj_len = int(line.split("=")[1])`. -/
def handleLength (line : String) (sv : SubVars) : Except PyErr SubVars :=
  match pyIndex (pySplitSep "=" line) 1 with
  | .error e => .error e
  | .ok piece =>
    match pyInt piece with
    | .error e => .error e
    | .ok n => .ok { sv with subj_len := .pyint n }

/-- `Score =` branch: run the two `re.search`es; each group is kept as a
string, and a failed search stores `None`.  Never raises. -/
def handleScore (line : String) (sv : SubVars) : SubVars :=
  let sm := reSearch scoreAt line.toList
  let em := reSearch expectAt line.toList
  { sv with
    score_bits := some (match sm with | some (g1, _) => .pystr g1 | none => .pynone),
    score := (match sm with | some (_, g2) => .pystr g2 | none => .pynone),
    e_value := (match em with | some g => .pystr g | none => .pynone) }

/-- `Identities` branch: `ident_m.group(..)` raises `AttributeError` when
the search failed; otherwise the three groups are converted with `int`. -/
def handleIdent (line : String) (sv : SubVars) : Except PyErr SubVars :=
  match reSearch identAt line.toList with
  | none => .error .attributeError
  | some (g1, g2, g3) =>
    .ok { sv with match_len := some (.pyint (intOfDigits g1)),
                  align_len := .pyint (intOfDigits g2),
                  identities := .pyint (intOfDigits g3) }

/-- Parse a `Query` / `Sbjct` segment line:
`parts = line.split(); (int(parts[1]), parts[2], int(parts[3]))`, with the
evaluation (and hence exception) order of the Python tuple expression. -/
def parseSegLine (line : String) : Except PyErr Chunk :=
  match pyIndex (pySplitWs line) 1 with
  | .error e => .error e
  | .ok t1 =>
    match pyInt t1 with
    | .error e => .error e
    | .ok a =>
      match pyIndex (pySplitWs line) 2 with
      | .error e => .error e
      | .ok t2 =>
        match pyIndex (pySplitWs line) 3 with
        | .error e => .error e
        | .ok t3 =>
          match pyInt t3 with
          | .error e => .error e
          | .ok b => .ok (a, t2, b)

/-- Does this line terminate the current sub-record scan
(`line.startswith(">") or line.startswith("Sequence ID:")`)? -/
def isTerminatorLine (line : String) : Bool :=
  pyStartsWith line ">" || pyStartsWith line "Sequence ID:"

/-- Reading the `Alignment(...)` argument list: `score_bits` and
`match_len` are read in that order, raising `UnboundLocalError` if still
unbound, then `Alignment.__init__` runs. -/
def finalizeRecord (subj_id subj_name : String) (sv : SubVars) : Except PyErr Alignment :=
  match sv.score_bits with
  | none => .error .unboundLocal
  | some sb =>
    match sv.match_len with
    | none => .error .unboundLocal
    | some ml =>
      Alignment.init subj_id subj_name sv.subj_len sb sv.score sv.e_value
        sv.identities ml sv.align_len sv.qchunks sv.schunks

/-- Fresh sub-record variables at the top of an outer-loop iteration
(src/main.py lines 283-284): the five reset fields become `None`, the chunk
lists become empty, and the never-reset `score_bits` / `match_len` keep
their current binding `g`. -/
def resetSubVars (g : Option PyVal × Option PyVal) : SubVars :=
  { subj_len := .pynone, score := .pynone, e_value := .pynone,
    identities := .pynone, align_len := .pynone,
    score_bits := g.1, match_len := g.2, qchunks := [], schunks := [] }

/-- The inner field-scan loop (src/main.py lines 286-328): walks the
block's lines from index `i`, dispatching on the `if/elif` chain; a `Query`
line consumes `lines[i]`, skips `lines[i+1]`, and (when present) consumes
`lines[i+2]` as the paired subject line; a line starting with `>` or
`Sequence ID:` breaks out with the index unchanged.  The `fuel` argument
only forces structural recursion: the cursor advances every round, so any
`fuel` of at least `lines.length` is enough, and the `fuel = 0` fallback
returns exactly what the `i ≥ lines.length` loop exit returns. -/
def scanSub (lines : List String) : Nat → Nat → SubVars → Except PyErr (Nat × SubVars)
  | 0, i, sv => .ok (i, sv)
  | fuel + 1, i, sv =>
    if h : i < lines.length then
      if pyStartsWith lines[i] "Length=" then
        match handleLength lines[i] sv with
        | .error e => .error e
        | .ok sv' => scanSub lines fuel (i + 1) sv'
      else if pyStartsWith lines[i] " Score =" then
        scanSub lines fuel (i + 1) (handleScore lines[i] sv)
      else if pyContains lines[i] "Identities" then
        match handleIdent lines[i] sv with
        | .error e => .error e
        | .ok sv' => scanSub lines fuel (i + 1) sv'
      else if pyStartsWith lines[i] "Query " then
        match parseSegLine lines[i] with
        | .error e => .error e
        | .ok qc =>
          if h2 : i + 2 < lines.length then
            match parseSegLine lines[i + 2] with
            | .error e => .error e
            | .ok sc =>
              scanSub lines fuel (i + 3)
                { sv with qchunks := sv.qchunks ++ [qc], schunks := sv.schunks ++ [sc] }
          else
            scanSub lines fuel (i + 3) { sv with qchunks := sv.qchunks ++ [qc] }
      else if isTerminatorLine lines[i] then
        .ok (i, sv)
      else
        scanSub lines fuel (i + 1) sv
    else
      .ok (i, sv)

/-- The skip loop after a sub-record is finalized (src/main.py lines
346-347): advance to the next line starting with `" Score ="`.  As with
`scanSub`, `fuel ≥ lines.length` makes the `fuel = 0` fallback coincide
with the `i ≥ lines.length` exit. -/
def skipToScore (lines : List String) : Nat → Nat → Nat
  | 0, i => i
  | fuel + 1, i =>
    if h : i < lines.length then
      if pyStartsWith lines[i] " Score =" then i else skipToScore lines fuel (i + 1)
    else i

/-- The outer sub-record loop over one subject block (src/main.py lines
281-347): starting from line index 1, repeatedly reset the sub-record
variables, run the field scan, finalize one `Alignment` (appending it), and
skip forward to the next `" Score ="` line.  The cursor strictly advances
every round (`scanSub_skip_progress`), so any `fuel ≥ lines.length` is
enough and the `fuel = 0` fallback coincides with the `i ≥ lines.length`
loop exit. -/
def blockLoop (lines : List String) (subj_id subj_name : String) :
    Nat → (Option PyVal × Option PyVal) → List Alignment → Nat →
      Except PyErr ((Option PyVal × Option PyVal) × List Alignment)
  | 0, g, acc, _ => .ok (g, acc)
  | fuel + 1, g, acc, i =>
    if i < lines.length then
      match scanSub lines lines.length i (resetSubVars g) with
      | .error e => .error e
      | .ok (i1, sv) =>
        match finalizeRecord subj_id subj_name sv with
        | .error e => .error e
        | .ok a =>
          blockLoop lines subj_id subj_name fuel (sv.score_bits, sv.match_len)
            (acc ++ [a]) (skipToScore lines lines.length i1)
    else
      .ok (g, acc)

/-- Process one subject block (src/main.py lines 275-347): split the
stripped block into lines, read the subject id and description from the
first line, then run the sub-record loop from line index 1. -/
def processBlock (g : Option PyVal × Option PyVal) (acc : List Alignment)
    (block : String) : Except PyErr ((Option PyVal × Option PyVal) × List Alignment) :=
  match pyIndex (pySplitSep "\n" (pyStrip block)) 0 with
  | .error e => .error e
  | .ok subj_line =>
    match pyIndex (pySplitWs subj_line) 0 with
    | .error e => .error e
    | .ok tok =>
      blockLoop (pySplitSep "\n" (pyStrip block)) (pyLstripGt tok)
        (pyJoin " " ((pySplitWs subj_line).drop 1))
        (pySplitSep "\n" (pyStrip block)).length g acc 1

/-- The `for block in blocks` loop, threading the never-reset locals
`score_bits` / `match_len` and the growing `alignments` list. -/
def blocksFold (g : Option PyVal × Option PyVal) (acc : List Alignment) :
    List String → Except PyErr ((Option PyVal × Option PyVal) × List Alignment)
  | [] => .ok (g, acc)
  | b :: bs =>
    match processBlock g acc b with
    | .error e => .error e
    | .ok (g1, acc1) => blocksFold g1 acc1 bs

/-- `parse_blast_text_output` (src/main.py lines 252-349): split the text
on `"\n\n>"`; if the first chunk starts with `<p>` replace it by what
follows the token `ALIGNMENTS` (stripped); then fold the block parser over
the blocks, starting with `score_bits` / `match_len` unbound. -/
def parse_blast_text_output (text : String) : Except PyErr (List Alignment) :=
  match pyIndex (pySplitSep "\n\n>" text) 0 with
  | .error e => .error e
  | .ok first_block =>
    match
      (if pyStartsWith first_block "<p>" then
        match pyIndex (pySplitSep "ALIGNMENTS" first_block) 1 with
        | .error e => .error e
        | .ok piece => .ok (pyStrip piece :: (pySplitSep "\n\n>" text).drop 1)
      else
        .ok (pySplitSep "\n\n>" text) : Except PyErr (List String)) with
    | .error e => .error e
    | .ok blocks =>
      match blocksFold (none, none) [] blocks with
      | .error e => .error e
      | .ok (_, alignments) => .ok alignments

/-!
The poller `wait_for_blast_results` (src/main.py lines 174-249) and the
submission driver `run_blast` (lines 89-171).

The network transport is modelled by its observable inputs: a scripted list
of successive status-poll response bodies and the body of the single final
report fetch.  Each loop round consumes the next scripted response;
`time.sleep` calls are recorded in a trace list.  The scripted list running
out while the loop would poll again is a model artifact reported as
`LoopExit.exhausted` (the Python loop would simply keep polling).
-/

/-- What one status response makes the polling loop body do. -/
inductive StepAction where
  | raiseProblem
  | sleepRepoll (secs : Nat)
  | raiseFailed
  | raiseExpired
  | breakReady
  deriving DecidableEq, Repr

/-- One round of the polling loop body (src/main.py lines 207-231): the
`problem with the search` check comes first, then the `if/elif` chain on
the status markers; both `READY` sub-branches break; an unrecognized
response sleeps `rtoe` instead of `poll_interval`. -/
def pollStep (rtoe poll_interval : Nat) (html : String) : StepAction :=
  if pyContains html "There was a problem with the search" then .raiseProblem
  else if pyContains html "Status=WAITING" then .sleepRepoll poll_interval
  else if pyContains html "Status=FAILED" then .raiseFailed
  else if pyContains html "Status=UNKNOWN" then .raiseExpired
  else if pyContains html "Status=READY" then .breakReady
  else .sleepRepoll rtoe

/-- How the polling loop ended. -/
inductive LoopExit where
  | ready
  | problem
  | failed
  | expired
  | exhausted
  deriving DecidableEq, Repr

/-- The `while True` polling loop over the scripted responses, returning
the trace of sleep durations and the way the loop ended. -/
def waitLoop (rtoe poll_interval : Nat) : List String → List Nat → List Nat × LoopExit
  | [], sleeps => (sleeps.reverse, .exhausted)
  | html :: rest, sleeps =>
    match pollStep rtoe poll_interval html with
    | .raiseProblem => (sleeps.reverse, .problem)
    | .sleepRepoll d => waitLoop rtoe poll_interval rest (d :: sleeps)
    | .raiseFailed => (sleeps.reverse, .failed)
    | .raiseExpired => (sleeps.reverse, .expired)
    | .breakReady => (sleeps.reverse, .ready)

deriving instance DecidableEq for Except

/-- Overall outcome of `wait_for_blast_results`: either the parser's result
on the fetched report, or the exception raised (each carrying the `rid`
embedded in its message), or the model artifact for an exhausted script. -/
inductive WaitOutcome where
  | result (r : Except PyErr (List Alignment))
  | errCheckProblem (rid : String)
  | errJobFailed (rid : String)
  | errRidExpired (rid : String)
  | errFinalFetch (rid : String)
  | scriptExhausted
  deriving DecidableEq, Repr

/-- `wait_for_blast_results(rid, rtoe=10, poll_interval=5)`: poll until a
terminal state; on `READY` issue the single final report fetch (modelled by
`fetchText`), raise if it too signals the problem condition, otherwise hand
the text to `parse_blast_text_output`.  Returns the sleep trace and the
outcome. -/
def wait_for_blast_results (rid : String) (rtoe poll_interval : Nat)
    (polls : List String) (fetchText : String) : List Nat × WaitOutcome :=
  match waitLoop rtoe poll_interval polls [] with
  | (sleeps, .problem) => (sleeps, .errCheckProblem rid)
  | (sleeps, .failed) => (sleeps, .errJobFailed rid)
  | (sleeps, .expired) => (sleeps, .errRidExpired rid)
  | (sleeps, .exhausted) => (sleeps, .scriptExhausted)
  | (sleeps, .ready) =>
    if pyContains fetchText "There was a problem with the search" then
      (sleeps, .errFinalFetch rid)
    else
      (sleeps, .result (parse_blast_text_output fetchText))

/-- Python `s.splitlines()` restricted to `\n` boundaries: like splitting
on `\n` but without a trailing empty piece. -/
def pySplitlines (s : String) : List String :=
  if s.isEmpty then []
  else
    let parts := pySplitSep "\n" s
    if s.toList.getLast? = some '\n' then parts.dropLast else parts

/-- The `RID = ` / `RTOE = ` extraction loop of `run_blast` (src/main.py
lines 150-159): scan the lines in order, the last matching line wins; both
checks are independent `if`s on the same line; a non-integer `RTOE` falls
back to 20. -/
def extractRidRtoe (text : String) : Option String × Option Int :=
  (pySplitlines text).foldl
    (fun st line =>
      let st1 := if pyContains line "RID =" then
          (match pyIndex (pySplitSep "=" line) 1 with
           | .ok piece => (some (pyStrip piece), st.2)
           | .error _ => st)
        else st
      if pyContains line "RTOE =" then
        match pyIndex (pySplitSep "=" line) 1 with
        | .ok piece =>
          (st1.1, some (match pyInt (pyStrip piece) with | .ok n => n | .error _ => 20))
        | .error _ => st1
      else st1)
    (none, none)

/-- Result of `run_blast` from the submission response onwards. -/
inductive RunResult where
  | waited (sleeps : List Nat) (w : WaitOutcome)
  | ridHandle (rid : String)
  | errRidNotFound
  deriving DecidableEq, Repr

/-- `run_blast` from the point the submission response body is known
(src/main.py lines 150-171): extract `rid` (and `rtoe`, which is only
logged); raise when `rid` is falsy; with `wait=True` delegate to
`wait_for_blast_results(rid)` (defaults `rtoe=10`, `poll_interval=5`);
with `wait=False` return the raw `rid` string. -/
def run_blast (wait : Bool) (respText : String) (polls : List String)
    (fetchText : String) : RunResult :=
  let rid := (extractRidRtoe respText).1
  match rid with
  | none => .errRidNotFound
  | some r =>
    if r.isEmpty then .errRidNotFound
    else if wait then
      match wait_for_blast_results r 10 5 polls fetchText with
      | (sleeps, w) => .waited sleeps w
    else
      .ridHandle r

/-!
Concrete report texts used in the claim theorems, counterexamples and
witnesses below.  They follow the textual format the parser handles:
subject blocks separated by a blank line plus `>`, a header line, and
`Length=` / `Score =` / `Identities` / `Query`-`Sbjct` line groups.
-/

/-- A single well-formed block with one `Score =` section (the shape of the
specification's Scenario A, with single spaces after `Score =` and the
`Expect` clause on the score line, which is where the code reads it). -/
def textA : String :=
  ">ACC1 Desc\nLength=500\n Score = 50.0 bits (100), Expect = 1e-10\n Identities = 45/50 (90%)\nQuery  1  ACGT  4\n          ||||\nSbjct  1  ACGT  4\n"

/-- A single subject block containing exactly two `Score =` sections and no
`Sequence ID:` / `>` separator between them. -/
def textTwoScores : String :=
  ">A d\nLength=9\n Score = 1.0 bits (2), Expect = 3.0\n Identities = 1/2 (50%)\nQuery  1  AC  2\n  ||\nSbjct  5  AC  6\n Score = 4.0 bits (8), Expect = 9.0\n Identities = 2/2 (100%)\nQuery  3  GG  4\n  ||\nSbjct  7  GG  8"

/-- The same two `Score =` sections, but separated by a `Sequence ID:`
line, which is what actually terminates a sub-record scan. -/
def textTwoScoresSep : String :=
  ">A d\nLength=9\n Score = 1.0 bits (2), Expect = 3.0\n Identities = 1/2 (50%)\nQuery  1  AC  2\n  ||\nSbjct  5  AC  6\nSequence ID: foo\n Score = 4.0 bits (8), Expect = 9.0\n Identities = 2/2 (100%)\nQuery  3  GG  4\n  ||\nSbjct  7  GG  8"

/-- Two subject blocks: a complete first block, then a second block with no
`Length=` / `Score =` / `Expect` / `Identities` lines at all (only an
ignored noise line and one `Query`-`Sbjct` pair). -/
def textMissingFields : String :=
  ">A d\n Score = 1.0 bits (2), Expect = 3.0\n Identities = 1/2 (50%)\nQuery  1  AC  2\n  ||\nSbjct  5  AC  6\n\n>B e\nrandom noise line\nQuery  1  GG  2\n  ||\nSbjct  7  GG  8"

/-- A block whose second line triggers no branch of the field scan. -/
def textOneNoiseLine : List String := [">X x", "plain line"]

/-- A block whose `Score =` line matches neither the score nor the expect
pattern (but which still has `Identities` and a segment pair, so the record
can be finalized). -/
def textBadScore : String :=
  ">A d\n Score = junk\n Identities = 1/2 (50%)\nQuery  1  AC  2\n  ||\nSbjct  5  AC  6"

/-!
Executable predicates used to state the general claim theorems.
-/

/-- `True` if an `Except` value is `ok`. -/
def exceptIsOk {ε α : Type} : Except ε α → Bool
  | .ok _ => true
  | .error _ => false

/-- A line that triggers no branch of the field scan: the scan ignores it
and leaves every sub-record variable untouched. -/
def benignLine (l : String) : Bool :=
  !pyStartsWith l "Length=" && !pyStartsWith l " Score =" &&
    !pyContains l "Identities" && !pyStartsWith l "Query " && !isTerminatorLine l

/-- Every line of the block that looks like a query-segment line (prefix
`"Query "`) parses as one, and its paired line two positions later exists
and parses as a segment line too: the hypothesis of the segment-pairing
claim (a block containing only well-formed Query/Subject line pairs). -/
def queryPairsOK (lines : List String) : Bool :=
  (List.range lines.length).all fun j =>
    !pyStartsWith (lines.getD j "") "Query " ||
      (decide (j + 2 < lines.length) &&
        exceptIsOk (parseSegLine (lines.getD j "")) &&
        exceptIsOk (parseSegLine (lines.getD (j + 2) "")))

/-- The segment recorded from line `j` (meaningful when that line parses). -/
def segOf (lines : List String) (j : Nat) : Chunk :=
  match parseSegLine (lines.getD j "") with
  | .ok c => c
  | .error _ => (0, "", 0)

/-- `True` exactly on `int`-valued dynamic values. -/
def pyValIsInt : PyVal → Bool
  | .pyint _ => true
  | _ => false

/-- Shape of the `score` field every parsed record can have: `None` or the
non-empty digit string captured by the `(\d+)` group of the score pattern
(never an `int`). -/
def scoreShapeOK : PyVal → Bool
  | .pynone => true
  | .pystr s => !s.toList.isEmpty && s.toList.all Char.isDigit
  | .pyint _ => false

/-- The field scan never moves the line cursor backwards. -/
theorem scanSub_le (lines : List String) (fuel : Nat) :
    ∀ (i : Nat) (sv : SubVars) (r : Nat × SubVars),
      scanSub lines fuel i sv = .ok r → i ≤ r.1 := by
  induction fuel with
  | zero =>
    intro i sv r hr
    rw [scanSub] at hr
    cases hr
    exact Nat.le_refl i
  | succ fuel ih =>
    intro i sv r hr
    rw [scanSub] at hr
    by_cases h : i < lines.length
    · rw [dif_pos h] at hr
      split at hr
      · split at hr
        · cases hr
        · exact Nat.le_trans (Nat.le_succ i) (ih (i + 1) _ r hr)
      · split at hr
        · exact Nat.le_trans (Nat.le_succ i) (ih (i + 1) _ r hr)
        · split at hr
          · split at hr
            · cases hr
            · exact Nat.le_trans (Nat.le_succ i) (ih (i + 1) _ r hr)
          · split at hr
            · split at hr
              · cases hr
              · split at hr
                · split at hr
                  · cases hr
                  · exact Nat.le_trans (by omega) (ih (i + 3) _ r hr)
                · exact Nat.le_trans (by omega) (ih (i + 3) _ r hr)
            · split at hr
              · cases hr
                exact Nat.le_refl i
              · exact Nat.le_trans (Nat.le_succ i) (ih (i + 1) _ r hr)
    · rw [dif_neg h] at hr
      cases hr
      exact Nat.le_refl i


/-- A sub-record terminator line (starting with `>` or `Sequence ID:`) does
not start with `" Score ="`. -/
theorem terminator_not_score (l : String) (h : isTerminatorLine l = true) :
    pyStartsWith l " Score =" = false := by
  unfold isTerminatorLine pyStartsWith at *
  rcases hl : l.toList with _ | ⟨c, cs⟩ <;> rw [hl] at h
  · simp [List.isPrefixOf] at h
  · have h1 : (">" : String).toList = ['>'] := rfl
    have h2 : ("Sequence ID:" : String).toList =
        ['S', 'e', 'q', 'u', 'e', 'n', 'c', 'e', ' ', 'I', 'D', ':'] := rfl
    have h3 : (" Score =" : String).toList = [' ', 'S', 'c', 'o', 'r', 'e', ' ', '='] := rfl
    rw [h1, h2] at h
    rw [h3]
    simp only [List.isPrefixOf, Bool.or_eq_true, Bool.and_eq_true, beq_iff_eq] at h
    rcases h with ⟨h, -⟩ | ⟨h, -⟩ <;> subst h <;> simp [List.isPrefixOf]


/-- The skip loop never moves the line cursor backwards. -/
theorem skipToScore_ge (lines : List String) (fuel : Nat) :
    ∀ i : Nat, i ≤ skipToScore lines fuel i := by
  induction fuel with
  | zero => intro i; rw [skipToScore]
  | succ fuel ih =>
    intro i
    rw [skipToScore]
    by_cases h : i < lines.length
    · rw [dif_pos h]
      split
      · exact Nat.le_refl i
      · exact Nat.le_trans (Nat.le_succ i) (ih (i + 1))
    · rw [dif_neg h]


/-- After one sub-record scan followed by a skip loop with non-zero fuel,
the line cursor has strictly advanced: this is why a block-loop fuel of
`lines.length` is enough in `processBlock`. -/
theorem scanSub_skip_progress (lines : List String) (fuel fuel2 : Nat) (i : Nat) (sv : SubVars)
    (r : Nat × SubVars) (hf : 0 < fuel) (hf2 : 0 < fuel2) (h : i < lines.length)
    (hr : scanSub lines fuel i sv = .ok r) :
    i + 1 ≤ skipToScore lines fuel2 r.1 := by
  rcases fuel with _ | fuel
  · omega
  rw [scanSub, dif_pos h] at hr
  split at hr
  · split at hr
    · cases hr
    · have h1 := scanSub_le lines fuel (i + 1) _ r hr
      have h2 := skipToScore_ge lines fuel2 r.1
      omega
  · split at hr
    · have h1 := scanSub_le lines fuel (i + 1) _ r hr
      have h2 := skipToScore_ge lines fuel2 r.1
      omega
    · split at hr
      · split at hr
        · cases hr
        · have h1 := scanSub_le lines fuel (i + 1) _ r hr
          have h2 := skipToScore_ge lines fuel2 r.1
          omega
      · split at hr
        · split at hr
          · cases hr
          · split at hr
            · split at hr
              · cases hr
              · have h1 := scanSub_le lines fuel (i + 3) _ r hr
                have h2 := skipToScore_ge lines fuel2 r.1
                omega
            · have h1 := scanSub_le lines fuel (i + 3) _ r hr
              have h2 := skipToScore_ge lines fuel2 r.1
              omega
        · split at hr
          · cases hr
            have hterm : isTerminatorLine lines[i] = true := by assumption
            show i + 1 ≤ skipToScore lines fuel2 i
            rcases fuel2 with _ | fuel2
            · omega
            rw [skipToScore, dif_pos h, if_neg]
            · exact skipToScore_ge lines fuel2 (i + 1)
            · rw [terminator_not_score lines[i] hterm]
              exact Bool.false_ne_true
          · have h1 := scanSub_le lines fuel (i + 1) _ r hr
            have h2 := skipToScore_ge lines fuel2 r.1
            omega


/-- A fallback `Alignment` value used only to destructure parser results in
witness statements. -/
def dummyAlignment : Alignment :=
  { subj_id := "", subj_name := "", subj_len := .pynone, score := .pynone,
    score_bits := .pynone, e_value := .pynone, match_len := .pynone,
    identities := .pynone, align_len := .pynone, query_align_chunks := [],
    sbjct_align_chunks := [], query_align := "", sbjct_align := "",
    subj_range := (0, 0) }

/-- The single record parsed from `textA`. -/
def recA : Alignment :=
  match parse_blast_text_output textA with
  | .ok (a :: _) => a
  | _ => dummyAlignment

/-- The lines of `textA`'s single subject block, as `processBlock` builds
them. -/
def linesA : List String := pySplitSep "\n" (pyStrip textA)

/-!
Claim theorems.
-/

/-- C2 counterexample: on the empty report body the parser does not return
an empty sequence — it raises `IndexError` (from `subj_line.split()[0]` on
the empty first line of the single empty block). -/
theorem C2_counterexample : parse_blast_text_output "" = .error .indexError := rfl

/-- C2 (amended): the empty report body raises `IndexError`; the empty
record sequence is instead returned, without raising, for a body whose
single block is just a header line (no `Score =` sections). -/
theorem C2_claim :
    parse_blast_text_output "" = .error .indexError ∧
    parse_blast_text_output ">A d" = .ok [] :=
  ⟨rfl, rfl⟩

/-- C3 counterexample: constructing an `Alignment` with zero query and zero
subject segments does not succeed — the `subj_range` derivation indexes
the empty subject-chunk list and raises `IndexError`. -/
theorem C3_counterexample :
    Alignment.init "T" "N" .pynone .pynone .pynone .pynone .pynone .pynone .pynone [] [] =
      .error .indexError := rfl

/-- C3 (amended): construction with zero subject segments raises
`IndexError`; with zero query segments and one subject segment it succeeds,
with `query_align` the empty string and `subj_range` taken from that
segment's boundaries. -/
theorem C3_claim :
    ∀ (sid sname : String) (v1 v2 v3 v4 v5 v6 v7 : PyVal) (c : Chunk),
      Alignment.init sid sname v1 v2 v3 v4 v5 v6 v7 [] [c] =
        .ok { subj_id := sid, subj_name := sname, subj_len := v1, score_bits := v2,
              score := v3, e_value := v4, identities := v5, match_len := v6,
              align_len := v7, query_align_chunks := [], sbjct_align_chunks := [c],
              query_align := "", sbjct_align := c.2.1, subj_range := (c.1, c.2.2) } := by
  intro sid sname v1 v2 v3 v4 v5 v6 v7 c
  simp [Alignment.init, joinChunkTexts]

/-- C6 (confirmed): for every successfully constructed record,
`query_align` and `sbjct_align` are the in-order concatenations of the
segment texts, and, whenever at least one subject segment exists,
`subj_range` is the pair (first subject segment's start, last subject
segment's end), computed from the segment boundaries alone. -/
theorem C6_claim :
    ∀ (sid sname : String) (v1 v2 v3 v4 v5 v6 v7 : PyVal) (q s : List Chunk) (a : Alignment),
      Alignment.init sid sname v1 v2 v3 v4 v5 v6 v7 q s = .ok a →
      a.query_align = String.join (q.map (fun c => c.2.1)) ∧
      a.sbjct_align = String.join (s.map (fun c => c.2.1)) ∧
      ∀ hne : s ≠ [], a.subj_range = ((s.head hne).1, (s.getLast hne).2.2) := by
  intro sid sname v1 v2 v3 v4 v5 v6 v7 q s a h
  cases s with
  | nil => exact absurd h (by simp [Alignment.init])
  | cons c cs =>
    rw [Alignment.init] at h
    simp only [Except.ok.injEq] at h
    subst h
    refine ⟨?_, ?_, ?_⟩
    · simp [joinChunkTexts, String.join, List.foldl_map]
    · simp [joinChunkTexts, String.join, List.foldl_map]
    · intro hne
      rfl

/-- C6 witness: the theorem applied to a concrete construction with no
query segment and one subject segment. -/
theorem C6_witness :
    (match Alignment.init "T" "N" .pynone .pynone .pynone .pynone .pynone .pynone .pynone
        [] [((3 : Int), "CD", (4 : Int))] with
      | .ok a => a
      | .error _ => dummyAlignment).subj_range = (3, 4) := by
  have h := C6_claim "T" "N" .pynone .pynone .pynone .pynone .pynone .pynone .pynone
    [] [((3 : Int), "CD", (4 : Int))] _ rfl
  exact (h.2.2 (by simp)).trans rfl

/-- C4 counterexample: a single subject block containing exactly two
`Score =` sections yields exactly one record, not two — the field scan does
not stop at a `Score =` line, so the second section's score overwrites the
first and both sections' segments accumulate into one record (its
`query_align` is the merged `"ACGG"`). -/
theorem C4_counterexample :
    (parse_blast_text_output textTwoScores).map List.length = .ok 1 ∧
    (parse_blast_text_output textTwoScores).map (List.map (fun a => a.query_align)) =
      .ok ["ACGG"] :=
  ⟨rfl, rfl⟩

/-- C4 (amended): a sub-record scan terminates only at a line starting with
`>` or `Sequence ID:` (or at the end of the block), not at a `Score =`
line.  A block whose two `Score =` sections are separated by a
`Sequence ID:` line yields exactly two records sharing `subj_id` and
`subj_name`; `subject_length` is reset per sub-record, so the second record
reverts to `None` unless its section repeats a `Length=` line.  Without
such a separator the two sections merge into a single record. -/
theorem C4_claim :
    (parse_blast_text_output textTwoScoresSep).map
        (List.map (fun a => (a.subj_id, a.subj_name, a.subj_len))) =
      .ok [("A", "d", .pyint 9), ("A", "d", .pynone)] ∧
    (parse_blast_text_output textTwoScores).map List.length = .ok 1 :=
  ⟨rfl, rfl⟩

/-- A scan over lines that trigger no branch leaves the sub-record
variables untouched and cannot raise. -/
theorem scanSub_benign (lines : List String) :
    ∀ (fuel i : Nat) (sv : SubVars), (lines.drop i).all benignLine = true →
      (scanSub lines fuel i sv).map Prod.snd = .ok sv := by
  intro fuel
  induction fuel with
  | zero => intro i sv _; rw [scanSub]; rfl
  | succ fuel ih =>
    intro i sv hb
    rw [scanSub]
    by_cases h : i < lines.length
    · rw [dif_pos h]
      rw [List.drop_eq_getElem_cons h, List.all_cons, Bool.and_eq_true] at hb
      obtain ⟨hbl, hrest⟩ := hb
      unfold benignLine at hbl
      simp only [Bool.and_eq_true, Bool.not_eq_true'] at hbl
      obtain ⟨⟨⟨⟨h1, h2⟩, h3⟩, h4⟩, h5⟩ := hbl
      rw [if_neg (by simp [h1]), if_neg (by simp [h2]), if_neg (by simp [h3]),
        if_neg (by simp [h4]), if_neg (by simp [h5])]
      exact ih (i + 1) sv hrest
    · rw [dif_neg h]
      rfl

/-- C1 counterexample: the parse is not total on malformed blocks — a block
whose first sub-record has no `Score =` line (here, only a `Length=` line)
raises `UnboundLocalError` when the record is finalized, because
`score_bits` was never assigned. -/
theorem C1_counterexample :
    parse_blast_text_output ">A d\nLength=5" = .error .unboundLocal := rfl

/-- C1 (amended): the parser's tolerance is real but partial.  Lines that
trigger no field pattern are skipped without raising and leave every field
untouched (so wholly absent optional lines yield `None` fields), and a
`" Score ="` line whose regexes fail to match never raises either — both
searches are guarded, so `score_bits`, `score` and `e_value` are simply
assigned `None`.  But the other trigger lines are not guarded: an
`Identities`-containing line that fails its pattern raises
`AttributeError`, a `Length=` line with a non-integer value raises
`ValueError`, and a malformed `Query ` line raises
`IndexError`/`ValueError`; and `score_bits` / `match_len` are never reset,
so a sub-record lacking `Score =` / `Identities` lines inherits their
values from an earlier sub-record — or raises `UnboundLocalError` if there
is none, as at the counterexample.  Concretely, in a two-block report whose
second block has no `Length=` / `Score =` / `Identities` lines, the second
record's `subj_len`, `score`, `e_value`, `identities` and `align_len` are
`None` while `score_bits` and `match_len` keep the first record's
values. -/
theorem C1_claim :
    (∀ (lines : List String) (fuel i : Nat) (sv : SubVars),
        (lines.drop i).all benignLine = true →
        (scanSub lines fuel i sv).map Prod.snd = .ok sv) ∧
    (∀ (lines : List String) (fuel i : Nat) (sv : SubVars) (h : i < lines.length),
        pyStartsWith lines[i] "Length=" = false →
        pyStartsWith lines[i] " Score =" = true →
        scanSub lines (fuel + 1) i sv = scanSub lines fuel (i + 1) (handleScore lines[i] sv)) ∧
    (parse_blast_text_output textBadScore).map
        (List.map (fun a => (a.score_bits, a.score, a.e_value))) =
      .ok [(.pynone, .pynone, .pynone)] ∧
    parse_blast_text_output ">A d\nzz Identities zz" = .error .attributeError ∧
    parse_blast_text_output ">A d\nLength=abc" = .error .valueError ∧
    parse_blast_text_output ">A d\nQuery x" = .error .valueError ∧
    (parse_blast_text_output textMissingFields).map
        (List.map (fun a => (a.subj_len, a.score, a.e_value, a.identities, a.align_len,
          a.score_bits, a.match_len))) =
      .ok [(.pynone, .pystr "2", .pystr "3.0", .pyint 50, .pyint 2, .pystr "1.0", .pyint 1),
        (.pynone, .pynone, .pynone, .pynone, .pynone, .pystr "1.0", .pyint 1)] := by
  refine ⟨scanSub_benign, ?_, rfl, rfl, rfl, rfl, rfl⟩
  intro lines fuel i sv h h1 h2
  rw [scanSub, dif_pos h, if_neg (by rw [h1]; exact Bool.false_ne_true), if_pos h2]

/-- C1 witness: the benign-scan part of the theorem applied to a concrete
block whose second line triggers nothing. -/
theorem C1_witness :
    (scanSub textOneNoiseLine 5 1 (resetSubVars (none, none))).map Prod.snd =
      .ok (resetSubVars (none, none)) :=
  C1_claim.1 textOneNoiseLine 5 1 (resetSubVars (none, none)) (by decide)

/-- A matched `+`-class run is non-empty and lies inside the class. -/
theorem classPlus_prop (p : Char → Bool) (cs run rest : List Char)
    (h : classPlus p cs = some (run, rest)) :
    run.isEmpty = false ∧ run.all p = true := by
  unfold classPlus at h
  cases htake : cs.takeWhile p with
  | nil => rw [htake] at h; cases h
  | cons r rs =>
    rw [htake] at h
    simp only [Option.some.injEq, Prod.mk.injEq] at h
    obtain ⟨h1, -⟩ := h
    subst h1
    refine ⟨rfl, ?_⟩
    rw [← htake]
    simp only [List.all_eq_true]
    intro x hx
    exact List.mem_takeWhile_imp hx

/-- The second group of the score pattern is a non-empty digit string. -/
theorem scoreAt_shape (cs : List Char) (g1 g2 : String) (h : scoreAt cs = some (g1, g2)) :
    g2.toList.isEmpty = false ∧ g2.toList.all Char.isDigit = true := by
  unfold scoreAt at h
  simp only [bind, Option.bind_eq_some, Option.some.injEq, Prod.mk.injEq] at h
  obtain ⟨a1, h1, a2, h2, a3, h3, a4, h4, ⟨r5, a5⟩, h5, a6, h6, a7, h7, a8, h8, a9, h9,
    ⟨r10, a10⟩, h10, a11, h11, hg1, hg2⟩ := h
  subst hg2
  exact classPlus_prop Char.isDigit a9 r10 a10 h10

/-- A successful search means the anchored matcher succeeded somewhere. -/
theorem reSearch_eq_some {α : Type} (f : List Char → Option α) (cs : List Char) (r : α)
    (h : reSearch f cs = some r) : ∃ cs2, f cs2 = some r := by
  induction cs with
  | nil => exact ⟨[], by rw [reSearch] at h; exact h⟩
  | cons c cs ih =>
    rw [reSearch] at h
    cases hf : f (c :: cs) with
    | some r2 => rw [hf] at h; cases h; exact ⟨c :: cs, hf⟩
    | none => rw [hf] at h; exact ih h

/-- After the `Score =` branch the `score` field is `None` or the captured
digit string. -/
theorem handleScore_score (line : String) (sv : SubVars) :
    scoreShapeOK (handleScore line sv).score = true := by
  unfold handleScore
  cases hsm : reSearch scoreAt line.toList with
  | none => simp [scoreShapeOK]
  | some pr =>
    obtain ⟨g1, g2⟩ := pr
    obtain ⟨cs2, hat⟩ := reSearch_eq_some _ _ _ hsm
    have hs := scoreAt_shape cs2 g1 g2 hat
    show scoreShapeOK (PyVal.pystr g2) = true
    simp only [scoreShapeOK]
    rw [hs.1, hs.2]
    rfl

/-- The `Length=` branch only assigns `subj_len`. -/
theorem handleLength_fields (line : String) (sv sv2 : SubVars)
    (h : handleLength line sv = .ok sv2) :
    sv2.score = sv.score ∧ sv2.qchunks = sv.qchunks ∧ sv2.schunks = sv.schunks := by
  unfold handleLength at h
  split at h
  · cases h
  · split at h
    · cases h
    · simp only [Except.ok.injEq] at h
      subst h
      exact ⟨rfl, rfl, rfl⟩

/-- The `Identities` branch only assigns `match_len`, `align_len` and
`identities`. -/
theorem handleIdent_fields (line : String) (sv sv2 : SubVars)
    (h : handleIdent line sv = .ok sv2) :
    sv2.score = sv.score ∧ sv2.qchunks = sv.qchunks ∧ sv2.schunks = sv.schunks := by
  unfold handleIdent at h
  split at h
  · cases h
  · simp only [Except.ok.injEq] at h
    subst h
    exact ⟨rfl, rfl, rfl⟩

/-- A finalized record stores the scan's `score` and chunk lists as they
are. -/
theorem finalizeRecord_fields (sid sname : String) (sv : SubVars) (a : Alignment)
    (h : finalizeRecord sid sname sv = .ok a) :
    a.score = sv.score ∧ a.query_align_chunks = sv.qchunks ∧
      a.sbjct_align_chunks = sv.schunks := by
  unfold finalizeRecord at h
  split at h
  · cases h
  · split at h
    · cases h
    · unfold Alignment.init at h
      split at h
      · cases h
      · rename_i heq
        simp only [Except.ok.injEq] at h
        subst h
        refine ⟨rfl, rfl, ?_⟩
        rw [heq]

/-- Through a whole field scan the `score` field keeps the `None`-or-digit
shape. -/
theorem scanSub_score (lines : List String) :
    ∀ (fuel i : Nat) (sv : SubVars) (r : Nat × SubVars),
      scanSub lines fuel i sv = .ok r → scoreShapeOK sv.score = true →
      scoreShapeOK r.2.score = true := by
  intro fuel
  induction fuel with
  | zero => intro i sv r hr hs; rw [scanSub] at hr; cases hr; exact hs
  | succ fuel ih =>
    intro i sv r hr hs
    rw [scanSub] at hr
    by_cases h : i < lines.length
    · rw [dif_pos h] at hr
      split at hr
      · split at hr
        · cases hr
        · rename_i sv2 heq
          exact ih _ sv2 r hr ((handleLength_fields _ _ _ heq).1 ▸ hs)
      · split at hr
        · exact ih _ _ r hr (handleScore_score _ _)
        · split at hr
          · split at hr
            · cases hr
            · rename_i sv2 heq
              exact ih _ sv2 r hr ((handleIdent_fields _ _ _ heq).1 ▸ hs)
          · split at hr
            · split at hr
              · cases hr
              · split at hr
                · split at hr
                  · cases hr
                  · exact ih _ _ r hr hs
                · exact ih _ _ r hr hs
            · split at hr
              · cases hr
                exact hs
              · exact ih _ _ r hr hs
    · rw [dif_neg h] at hr
      cases hr
      exact hs

/-- Every record the block loop appends has a well-shaped `score`. -/
theorem blockLoop_score (lines : List String) (sid sname : String) :
    ∀ (fuel : Nat) (g : Option PyVal × Option PyVal) (acc : List Alignment) (i : Nat)
      (g2 : Option PyVal × Option PyVal) (out : List Alignment),
      blockLoop lines sid sname fuel g acc i = .ok (g2, out) →
      (∀ a ∈ acc, scoreShapeOK a.score = true) →
      ∀ a ∈ out, scoreShapeOK a.score = true := by
  intro fuel
  induction fuel with
  | zero =>
    intro g acc i g2 out hr hacc
    rw [blockLoop] at hr
    cases hr
    exact hacc
  | succ fuel ih =>
    intro g acc i g2 out hr hacc
    rw [blockLoop] at hr
    split at hr
    · split at hr
      · cases hr
      · rename_i i1 sv hscan
        split at hr
        · cases hr
        · rename_i a hfin
          refine ih _ _ _ g2 out hr ?_
          intro b hb
          rcases List.mem_append.mp hb with hb | hb
          · exact hacc b hb
          · rw [List.mem_singleton.mp hb]
            have hsv : scoreShapeOK sv.score = true :=
              scanSub_score lines lines.length i (resetSubVars g) (i1, sv) hscan rfl
            exact (finalizeRecord_fields sid sname sv a hfin).1 ▸ hsv
    · cases hr
      exact hacc

/-- `processBlock` only adds records with a well-shaped `score`. -/
theorem processBlock_score (g : Option PyVal × Option PyVal) (acc : List Alignment)
    (block : String) (g2 : Option PyVal × Option PyVal) (out : List Alignment)
    (hr : processBlock g acc block = .ok (g2, out))
    (hacc : ∀ a ∈ acc, scoreShapeOK a.score = true) :
    ∀ a ∈ out, scoreShapeOK a.score = true := by
  unfold processBlock at hr
  split at hr
  · cases hr
  · split at hr
    · cases hr
    · exact blockLoop_score _ _ _ _ _ _ _ _ _ hr hacc

/-- `blocksFold` only adds records with a well-shaped `score`. -/
theorem blocksFold_score :
    ∀ (blocks : List String) (g : Option PyVal × Option PyVal) (acc : List Alignment)
      (g2 : Option PyVal × Option PyVal) (out : List Alignment),
      blocksFold g acc blocks = .ok (g2, out) →
      (∀ a ∈ acc, scoreShapeOK a.score = true) →
      ∀ a ∈ out, scoreShapeOK a.score = true := by
  intro blocks
  induction blocks with
  | nil =>
    intro g acc g2 out hr hacc
    rw [blocksFold] at hr
    cases hr
    exact hacc
  | cons b bs ih =>
    intro g acc g2 out hr hacc
    rw [blocksFold] at hr
    split at hr
    · cases hr
    · rename_i g1 acc1 hp
      exact ih g1 acc1 g2 out hr (processBlock_score g acc b g1 acc1 hp hacc)

/-- C9 counterexample: on a concrete well-formed report the raw score field
of the produced record is the string `"100"`, not an integer value (the
regex group is stored without conversion). -/
theorem C9_counterexample :
    (parse_blast_text_output textA).map (List.map (fun a => (a.score, pyValIsInt a.score))) =
      .ok [(.pystr "100", false)] := rfl

/-- C9 (amended): in every record the parser produces, the raw score field
is `None` or the non-empty digit string captured by the `(\d+)` group of
the `Score = <float> bits (<int>)` pattern — a string, never an integer
value. -/
theorem C9_claim :
    ∀ (text : String) (recs : List Alignment),
      parse_blast_text_output text = .ok recs →
      ∀ a ∈ recs, scoreShapeOK a.score = true := by
  intro text recs hr
  unfold parse_blast_text_output at hr
  split at hr
  · cases hr
  · split at hr
    · cases hr
    · split at hr
      · cases hr
      · rename_i gEnd out hp
        simp only [Except.ok.injEq] at hr
        subst hr
        exact blocksFold_score _ _ _ _ _ hp (by intro a ha; cases ha)

/-- C9 witness: the theorem applied to the concrete report `textA`, whose
single record carries `score = "100"`. -/
theorem C9_witness : scoreShapeOK recA.score = true := by
  have hp : parse_blast_text_output textA = .ok [recA] := rfl
  exact C9_claim textA [recA] hp recA (List.mem_singleton_self recA)

/-- `getD` at an in-range index is plain indexing. -/
theorem getD_lt {α : Type} (l : List α) (d : α) (n : Nat) (h : n < l.length) :
    l.getD n d = l[n] := by
  simp [List.getD_eq_getElem?_getD, List.getElem?_eq_getElem h]

/-- Core pairing invariant of the field scan: under the well-paired-block
hypothesis, a successful scan extends both chunk lists by the same strictly
increasing list of `Query`-line positions — the query chunk parsed from
each such line and the subject chunk parsed from the line two positions
later. -/
theorem scanSub_pairs (lines : List String) (hq : queryPairsOK lines = true) :
    ∀ (fuel i : Nat) (sv : SubVars) (r : Nat × SubVars),
      scanSub lines fuel i sv = .ok r →
      ∃ ps : List Nat,
        (∀ j ∈ ps, i ≤ j ∧ j < lines.length ∧
          pyStartsWith (lines.getD j "") "Query " = true) ∧
        ps.Pairwise (fun x y => x < y) ∧
        r.2.qchunks = sv.qchunks ++ ps.map (segOf lines) ∧
        r.2.schunks = sv.schunks ++ ps.map (fun j => segOf lines (j + 2)) := by
  intro fuel
  induction fuel with
  | zero =>
    intro i sv r hr
    rw [scanSub] at hr
    cases hr
    exact ⟨[], by simp, by simp, by simp, by simp⟩
  | succ fuel ih =>
    intro i sv r hr
    rw [scanSub] at hr
    by_cases h : i < lines.length
    · rw [dif_pos h] at hr
      split at hr
      · split at hr
        · cases hr
        · rename_i sv2 heq
          obtain ⟨ps, hmem, hpw, hqc, hsc⟩ := ih (i + 1) sv2 r hr
          obtain ⟨-, hq2, hs2⟩ := handleLength_fields _ _ _ heq
          exact ⟨ps, fun j hj => ⟨by have := (hmem j hj).1; omega, (hmem j hj).2⟩, hpw,
            by rw [hqc, hq2], by rw [hsc, hs2]⟩
      · split at hr
        · obtain ⟨ps, hmem, hpw, hqc, hsc⟩ := ih (i + 1) _ r hr
          exact ⟨ps, fun j hj => ⟨by have := (hmem j hj).1; omega, (hmem j hj).2⟩, hpw,
            hqc, hsc⟩
        · split at hr
          · split at hr
            · cases hr
            · rename_i sv2 heq
              obtain ⟨ps, hmem, hpw, hqc, hsc⟩ := ih (i + 1) sv2 r hr
              obtain ⟨-, hq2, hs2⟩ := handleIdent_fields _ _ _ heq
              exact ⟨ps, fun j hj => ⟨by have := (hmem j hj).1; omega, (hmem j hj).2⟩, hpw,
                by rw [hqc, hq2], by rw [hsc, hs2]⟩
          · split at hr
            · rename_i hquery
              split at hr
              · cases hr
              · rename_i qc hqcparse
                split at hr
                · rename_i h2
                  split at hr
                  · cases hr
                  · rename_i sc hscparse
                    obtain ⟨ps, hmem, hpw, hqc, hsc⟩ := ih (i + 3) _ r hr
                    have hsegq : segOf lines i = qc := by
                      unfold segOf
                      rw [getD_lt lines "" i h, hqcparse]
                    have hsegs : segOf lines (i + 2) = sc := by
                      unfold segOf
                      rw [getD_lt lines "" (i + 2) h2, hscparse]
                    refine ⟨i :: ps, ?_, ?_, ?_, ?_⟩
                    · intro j hj
                      rcases List.mem_cons.mp hj with hj | hj
                      · subst hj
                        refine ⟨Nat.le_refl _, h, ?_⟩
                        rw [getD_lt _ _ _ h]
                        exact hquery
                      · exact ⟨by have := (hmem j hj).1; omega, (hmem j hj).2⟩
                    · rw [List.pairwise_cons]
                      exact ⟨fun j hj => by have := (hmem j hj).1; omega, hpw⟩
                    · rw [hqc]
                      simp [hsegq, List.append_assoc]
                    · rw [hsc]
                      simp [hsegs, List.append_assoc]
                · rename_i h2
                  exfalso
                  have hall := List.all_eq_true.mp hq i (List.mem_range.mpr h)
                  rw [getD_lt lines "" i h, hquery] at hall
                  simp only [Bool.not_true, Bool.false_or, Bool.and_eq_true,
                    decide_eq_true_eq] at hall
                  exact h2 hall.1.1
            · split at hr
              · cases hr
                exact ⟨[], by simp, by simp, by simp, by simp⟩
              · obtain ⟨ps, hmem, hpw, hqc, hsc⟩ := ih (i + 1) sv r hr
                exact ⟨ps, fun j hj => ⟨by have := (hmem j hj).1; omega, (hmem j hj).2⟩,
                  hpw, hqc, hsc⟩
    · rw [dif_neg h] at hr
      cases hr
      exact ⟨[], by simp, by simp, by simp, by simp⟩

/-- Pairing invariant lifted through the outer block loop: every record it
appends stems from one sub-record scan that started with empty chunk
lists. -/
theorem blockLoop_pairs (lines : List String) (sid sname : String)
    (hq : queryPairsOK lines = true) :
    ∀ (fuel : Nat) (g : Option PyVal × Option PyVal) (acc : List Alignment) (i : Nat)
      (g2 : Option PyVal × Option PyVal) (out : List Alignment),
      blockLoop lines sid sname fuel g acc i = .ok (g2, out) →
      ∀ a ∈ out, a ∈ acc ∨
        ∃ ps : List Nat,
          ps.Pairwise (fun x y => x < y) ∧
          (∀ j ∈ ps, j < lines.length ∧ pyStartsWith (lines.getD j "") "Query " = true) ∧
          a.query_align_chunks = ps.map (segOf lines) ∧
          a.sbjct_align_chunks = ps.map (fun j => segOf lines (j + 2)) := by
  intro fuel
  induction fuel with
  | zero =>
    intro g acc i g2 out hr a ha
    rw [blockLoop] at hr
    cases hr
    exact Or.inl ha
  | succ fuel ih =>
    intro g acc i g2 out hr a ha
    rw [blockLoop] at hr
    split at hr
    · split at hr
      · cases hr
      · rename_i i1 sv hscan
        split at hr
        · cases hr
        · rename_i b hfin
          rcases ih _ _ _ g2 out hr a ha with hmem | hP
          · rcases List.mem_append.mp hmem with hmem | hmem
            · exact Or.inl hmem
            · right
              rw [List.mem_singleton.mp hmem]
              obtain ⟨ps, hmem2, hpw, hqc, hsc⟩ :=
                scanSub_pairs lines hq lines.length i (resetSubVars g) (i1, sv) hscan
              obtain ⟨-, hbq, hbs⟩ := finalizeRecord_fields sid sname sv b hfin
              refine ⟨ps, hpw, fun j hj => (hmem2 j hj).2, ?_, ?_⟩
              · rw [hbq]
                have : sv.qchunks = ps.map (segOf lines) := by
                  have := hqc
                  simpa using this
                exact this
              · rw [hbs]
                have : sv.schunks = ps.map (fun j => segOf lines (j + 2)) := by
                  have := hsc
                  simpa using this
                exact this
          · exact Or.inr hP
    · cases hr
      exact Or.inl ha

/-- C5 (confirmed): from a block in which every `Query`-prefixed line
parses as a segment line and its paired line two positions later exists and
parses too, every produced record has equally many query and subject
segments, and there is a strictly increasing list of `Query`-line positions
such that segment `k` of the query list is parsed from position `ps[k]` and
segment `k` of the subject list is parsed from position `ps[k] + 2` — the
scan consumes a `Query` line, skips exactly one line, and takes the next
line as the paired subject segment. -/
theorem C5_claim :
    ∀ (lines : List String) (sid sname : String) (fuel : Nat)
      (g : Option PyVal × Option PyVal) (i : Nat)
      (g2 : Option PyVal × Option PyVal) (out : List Alignment),
      queryPairsOK lines = true →
      blockLoop lines sid sname fuel g [] i = .ok (g2, out) →
      ∀ a ∈ out,
        a.query_align_chunks.length = a.sbjct_align_chunks.length ∧
        ∃ ps : List Nat,
          ps.Pairwise (fun x y => x < y) ∧
          (∀ j ∈ ps, j < lines.length ∧ pyStartsWith (lines.getD j "") "Query " = true) ∧
          a.query_align_chunks = ps.map (segOf lines) ∧
          a.sbjct_align_chunks = ps.map (fun j => segOf lines (j + 2)) := by
  intro lines sid sname fuel g i g2 out hq hr a ha
  rcases blockLoop_pairs lines sid sname hq fuel g [] i g2 out hr a ha with hmem | hP
  · cases hmem
  · obtain ⟨ps, hpw, hmem, hqc, hsc⟩ := hP
    refine ⟨?_, ps, hpw, hmem, hqc, hsc⟩
    rw [hqc, hsc, List.length_map, List.length_map]

/-- C5 witness: the theorem applied to the concrete block of `textA`, whose
single record pairs one query segment with one subject segment. -/
theorem C5_witness :
    recA.query_align_chunks.length = recA.sbjct_align_chunks.length := by
  have hb : blockLoop linesA "ACC1" "Desc" linesA.length (none, none) [] 1 =
      .ok ((some (.pystr "50.0"), some (.pyint 45)), [recA]) := rfl
  exact (C5_claim linesA "ACC1" "Desc" linesA.length (none, none) 1
    (some (.pystr "50.0"), some (.pyint 45)) [recA] rfl hb recA
    (List.mem_singleton_self recA)).1

/-- C7 (confirmed): the per-response step obeys the transition table, with
the checks made in the source's order (`problem with the search` first,
then the `Status=` markers): problem raises; `WAITING` sleeps
`poll_interval` (default 5) and repolls; `FAILED` raises; `UNKNOWN` raises;
`READY` stops polling for the fetch; anything else sleeps `rtoe` instead of
`poll_interval`.  For the scripted sequence WAITING, WAITING, READY the
poller sleeps twice (5 each) and then fetches and parses; for the scripted
sequence FAILED it raises with no sleeps, independently of any fetch
text. -/
theorem C7_claim :
    (∀ (rtoe pi : Nat) (html : String),
      pyContains html "There was a problem with the search" = true →
      pollStep rtoe pi html = .raiseProblem) ∧
    (∀ (rtoe pi : Nat) (html : String),
      pyContains html "There was a problem with the search" = false →
      pyContains html "Status=WAITING" = true →
      pollStep rtoe pi html = .sleepRepoll pi) ∧
    (∀ (rtoe pi : Nat) (html : String),
      pyContains html "There was a problem with the search" = false →
      pyContains html "Status=WAITING" = false →
      pyContains html "Status=FAILED" = true →
      pollStep rtoe pi html = .raiseFailed) ∧
    (∀ (rtoe pi : Nat) (html : String),
      pyContains html "There was a problem with the search" = false →
      pyContains html "Status=WAITING" = false →
      pyContains html "Status=FAILED" = false →
      pyContains html "Status=UNKNOWN" = true →
      pollStep rtoe pi html = .raiseExpired) ∧
    (∀ (rtoe pi : Nat) (html : String),
      pyContains html "There was a problem with the search" = false →
      pyContains html "Status=WAITING" = false →
      pyContains html "Status=FAILED" = false →
      pyContains html "Status=UNKNOWN" = false →
      pyContains html "Status=READY" = true →
      pollStep rtoe pi html = .breakReady) ∧
    (∀ (rtoe pi : Nat) (html : String),
      pyContains html "There was a problem with the search" = false →
      pyContains html "Status=WAITING" = false →
      pyContains html "Status=FAILED" = false →
      pyContains html "Status=UNKNOWN" = false →
      pyContains html "Status=READY" = false →
      pollStep rtoe pi html = .sleepRepoll rtoe) ∧
    wait_for_blast_results "JOB" 10 5 ["Status=WAITING", "Status=WAITING", "Status=READY"]
        ">A d" = ([5, 5], .result (.ok [])) ∧
    (∀ ft : String,
      wait_for_blast_results "JOB" 10 5 ["Status=FAILED"] ft = ([], .errJobFailed "JOB")) := by
  refine ⟨?_, ?_, ?_, ?_, ?_, ?_, rfl, fun ft => rfl⟩
  · intro rtoe pi html h1
    simp [pollStep, h1]
  · intro rtoe pi html h1 h2
    simp [pollStep, h1, h2]
  · intro rtoe pi html h1 h2 h3
    simp [pollStep, h1, h2, h3]
  · intro rtoe pi html h1 h2 h3 h4
    simp [pollStep, h1, h2, h3, h4]
  · intro rtoe pi html h1 h2 h3 h4 h5
    simp [pollStep, h1, h2, h3, h4, h5]
  · intro rtoe pi html h1 h2 h3 h4 h5
    simp [pollStep, h1, h2, h3, h4, h5]

/-- C7 witness: the WAITING conjunct of the transition table applied to a
concrete response. -/
theorem C7_witness : pollStep 10 5 "xx Status=WAITING yy" = .sleepRepoll 5 :=
  C7_claim.2.1 10 5 "xx Status=WAITING yy" (by decide) (by decide)

/-- C8 (confirmed): once the polling loop ends READY, the poller performs
the single report fetch (modelled by `fetchText`); if the fetched text
signals the `problem with the search` condition it raises the final-fetch
error carrying the job handle instead of parsing, and otherwise the outcome
is exactly the parser's verdict on the fetched text. -/
theorem C8_claim :
    ∀ (rid : String) (rtoe pi : Nat) (polls : List String) (ft : String)
      (sleeps : List Nat),
      waitLoop rtoe pi polls [] = (sleeps, .ready) →
      (pyContains ft "There was a problem with the search" = true →
        wait_for_blast_results rid rtoe pi polls ft = (sleeps, .errFinalFetch rid)) ∧
      (pyContains ft "There was a problem with the search" = false →
        wait_for_blast_results rid rtoe pi polls ft =
          (sleeps, .result (parse_blast_text_output ft))) := by
  intro rid rtoe pi polls ft sleeps hloop
  constructor
  · intro hft
    unfold wait_for_blast_results
    rw [hloop]
    simp [hft]
  · intro hft
    unfold wait_for_blast_results
    rw [hloop]
    simp [hft]

/-- C8 witness: the theorem applied to a script that reports READY and a
fetched report that carries the problem marker. -/
theorem C8_witness :
    wait_for_blast_results "JOB" 10 5 ["Status=READY"]
        "There was a problem with the search" = ([], .errFinalFetch "JOB") :=
  (C8_claim "JOB" 10 5 ["Status=READY"] "There was a problem with the search" [] rfl).1 rfl

/-- C10 (confirmed): when the submission response yields a truthy request
id, `run_blast` with `wait=False` returns the raw id string itself, and
only with `wait=True` does it run the poll-fetch-parse pipeline (whose
sleeps and outcome it returns unchanged). -/
theorem C10_claim :
    ∀ (respText : String) (polls : List String) (ft : String) (r : String),
      (extractRidRtoe respText).1 = some r → r.isEmpty = false →
      run_blast false respText polls ft = .ridHandle r ∧
      run_blast true respText polls ft =
        .waited (wait_for_blast_results r 10 5 polls ft).1
          (wait_for_blast_results r 10 5 polls ft).2 := by
  intro respText polls ft r hrid hemp
  constructor
  · unfold run_blast
    rw [hrid]
    simp [hemp]
  · unfold run_blast
    rw [hrid]
    simp only [hemp, Bool.false_eq_true, if_false, if_true]

/-- C10 witness: the theorem applied to a concrete submission response. -/
theorem C10_witness :
    run_blast false "RID = ABC\nRTOE = 7" [] "" = .ridHandle "ABC" :=
  (C10_claim "RID = ABC\nRTOE = 7" [] "" "ABC" rfl rfl).1

/-!
Fuel adequacy.  The `fuel` arguments exist only to make the loops
structurally recursive; the theorems below show that at the fuels the
callers pass, the `fuel = 0` fallbacks are unreachable: one more unit of
fuel never changes the result, so each function computes the limit of its
loop.
-/

/-- A matched literal consumes exactly its own length. -/
theorem matchLit_length (sep : List Char) :
    ∀ (l rest : List Char), matchLit sep l = some rest →
      rest.length + sep.length = l.length := by
  induction sep with
  | nil =>
    intro l rest h
    rw [matchLit] at h
    cases h
    simp
  | cons p ps ih =>
    intro l rest h
    cases l with
    | nil => rw [matchLit] at h; cases h
    | cons c cs =>
      rw [matchLit] at h
      split at h
      · have := ih cs rest h
        simp only [List.length_cons]
        omega
      · cases h

/-- For a non-empty separator, the text after the first separator is
strictly shorter than the whole text. -/
theorem splitSepOnce_length (sep : List Char) (hsep : sep ≠ []) :
    ∀ (l piece rest : List Char), splitSepOnce sep l = (piece, some rest) →
      rest.length < l.length := by
  intro l
  induction l with
  | nil =>
    intro piece rest h
    rw [splitSepOnce] at h
    cases h
  | cons c cs ih =>
    intro piece rest h
    rw [splitSepOnce] at h
    split at h
    · rename_i rest2 hm
      simp only [Prod.mk.injEq, Option.some.injEq] at h
      obtain ⟨-, h2⟩ := h
      have hml := matchLit_length sep (c :: cs) rest2 hm
      have hpos : 0 < sep.length := List.length_pos.mpr hsep
      rw [← h2]
      simp only [List.length_cons] at hml ⊢
      omega
    · split at h
      · rename_i piece2 r heq
        simp only [Prod.mk.injEq] at h
        obtain ⟨-, h2⟩ := h
        rw [h2] at heq
        have := ih piece2 rest heq
        simp only [List.length_cons]
        omega

/-- With fuel beyond the text length, the splitting loop has converged. -/
theorem splitSepList_fuel (sep : List Char) (hsep : sep ≠ []) :
    ∀ (fuel : Nat) (l : List Char), l.length < fuel →
      splitSepList sep (fuel + 1) l = splitSepList sep fuel l := by
  intro fuel
  induction fuel with
  | zero => intro l hl; omega
  | succ fuel ih =>
    intro l hl
    rw [splitSepList, splitSepList]
    cases ho : splitSepOnce sep l with
    | mk piece orest =>
      cases orest with
      | none => rfl
      | some rest =>
        have hlen := splitSepOnce_length sep hsep l piece rest ho
        show piece :: splitSepList sep (fuel + 1) rest = piece :: splitSepList sep fuel rest
        rw [ih rest (by omega)]

/-- With fuel covering the remaining lines, the field scan has converged. -/
theorem scanSub_fuel (lines : List String) :
    ∀ (fuel i : Nat) (sv : SubVars), lines.length ≤ fuel + i →
      scanSub lines (fuel + 1) i sv = scanSub lines fuel i sv := by
  intro fuel
  induction fuel with
  | zero =>
    intro i sv hl
    rw [scanSub, scanSub, dif_neg (by omega)]
  | succ fuel ih =>
    intro i sv hl
    conv_lhs => rw [scanSub]
    conv_rhs => rw [scanSub]
    split
    · rename_i h
      split
      · split
        · rfl
        · exact ih (i + 1) _ (by omega)
      · split
        · exact ih (i + 1) _ (by omega)
        · split
          · split
            · rfl
            · exact ih (i + 1) _ (by omega)
          · split
            · split
              · rfl
              · split
                · split
                  · rfl
                  · exact ih (i + 3) _ (by omega)
                · exact ih (i + 3) _ (by omega)
            · split
              · rfl
              · exact ih (i + 1) _ (by omega)
    · rfl

/-- With fuel covering the remaining lines, the skip loop has converged. -/
theorem skipToScore_fuel (lines : List String) :
    ∀ (fuel i : Nat), lines.length ≤ fuel + i →
      skipToScore lines (fuel + 1) i = skipToScore lines fuel i := by
  intro fuel
  induction fuel with
  | zero =>
    intro i hl
    rw [skipToScore, skipToScore, dif_neg (by omega)]
  | succ fuel ih =>
    intro i hl
    conv_lhs => rw [skipToScore]
    conv_rhs => rw [skipToScore]
    split
    · split
      · rfl
      · exact ih (i + 1) (by omega)
    · rfl

/-- With fuel covering the remaining lines, the outer block loop has
converged: its per-round cursor strictly advances
(`scanSub_skip_progress`), so `lines.length` rounds always suffice. -/
theorem blockLoop_fuel (lines : List String) (sid sname : String) :
    ∀ (fuel : Nat) (g : Option PyVal × Option PyVal) (acc : List Alignment) (i : Nat),
      lines.length ≤ fuel + i →
      blockLoop lines sid sname (fuel + 1) g acc i =
        blockLoop lines sid sname fuel g acc i := by
  intro fuel
  induction fuel with
  | zero =>
    intro g acc i hl
    rw [blockLoop, blockLoop, if_neg (by omega)]
  | succ fuel ih =>
    intro g acc i hl
    conv_lhs => rw [blockLoop]
    conv_rhs => rw [blockLoop]
    split
    · rename_i h
      split
      · rfl
      · rename_i i1 sv hscan
        split
        · rfl
        · rename_i a hfin
          refine ih (sv.score_bits, sv.match_len) (acc ++ [a])
            (skipToScore lines lines.length i1) ?_
          have hp : i + 1 ≤ skipToScore lines lines.length (i1, sv).1 :=
            scanSub_skip_progress lines lines.length lines.length i (resetSubVars g)
              (i1, sv) (by omega) (by omega) h hscan
          simp only at hp
          omega
    · rfl


end Blast
